/-
Verification of the claim set for the grant-announcement RAG core
(rag_system.py): deadline analysis, Korean monetary-amount
normalization, query amount-condition extraction, priority reranking,
confidence estimation, conversation memory, and the error path of
get_response.

The Python source works on strings with `re` patterns; here every regex
used by the relevant functions is embedded as an explicit backtracking
matcher over `List Char` with Python's leftmost / greedy semantics.
Python ints become Nat/Int, floats become Rat where the source only
adds and compares, and Real where the source calls math.log10.
-/
import Mathlib

/-! ## Character and scanning primitives -/

abbrev Chars := List Char

/-- whitespace class of the regex `\s` (ASCII part, which is all the
source data uses). -/
def isWS (c : Char) : Bool :=
  c = ' ' || c = '\t' || c = '\n' || c = '\r' || c = '\x0b' || c = '\x0c'

/-- greedy `\s*`.  In every embedded pattern `\s*` is followed by a
non-whitespace literal or the end of the pattern, so the greedy scan
never needs to backtrack. -/
def skipWS : Chars → Chars
  | [] => []
  | c :: r => if isWS c then skipWS r else c :: r

def digitVal (c : Char) : ℕ := c.toNat - 48

/-- Python `int` on a run of decimal digits (comma-stripped). -/
def digitsToNat (l : Chars) : ℕ := l.foldl (fun a c => a * 10 + digitVal c) 0

/-- first alternative that the continuation accepts: the backtracking
order of the regex engine. -/
def firstSome {α β : Type} (f : α → Option β) : List α → Option β
  | [] => none
  | x :: t =>
    match f x with
    | some b => some b
    | none => firstSome f t

/-- alternatives for `\d{lo,hi}` (`hi = none` means unbounded), longest
first, each as (digits taken, rest). -/
def digitAlts (lo : ℕ) (hi : Option ℕ) (l : Chars) : List (Chars × Chars) :=
  let run := l.takeWhile Char.isDigit
  let rest0 := l.dropWhile Char.isDigit
  let n := match hi with
    | some h => min h run.length
    | none => run.length
  (List.range (n + 1 - lo)).map (fun i =>
    let k := n - i
    (run.take k, run.drop k ++ rest0))

/-- alternatives for the greedy `(?:,\d{3})*`, most groups first, each
as (digits collected without the commas, rest).  Each group consumes
four characters, so the input length is enough fuel. -/
def commaAltsAux : ℕ → Chars → List (Chars × Chars)
  | 0, l => [([], l)]
  | fuel + 1, ',' :: r =>
    let d3 := r.take 3
    if d3.length = 3 && d3.all Char.isDigit then
      ((commaAltsAux fuel (r.drop 3)).map (fun p => (d3 ++ p.1, p.2))) ++
        [([], ',' :: r)]
    else [([], ',' :: r)]
  | _ + 1, l => [([], l)]

def commaAlts (l : Chars) : List (Chars × Chars) := commaAltsAux l.length l

def litChar (c : Char) (l : Chars) : Option Chars :=
  match l with
  | x :: r => if x = c then some r else none
  | [] => none

def litStr : Chars → Chars → Option Chars
  | [], l => some l
  | c :: cs, l =>
    match litChar c l with
    | some r => litStr cs r
    | none => none

/-- trailing `X?` with nothing after it: greedy, take it if present. -/
def eatOptChar (c : Char) (l : Chars) : Chars :=
  match l with
  | x :: r => if x = c then r else l
  | [] => []

/-- token of a linear regex tail: required literal, optional literal
(with backtracking), or `\s*`. -/
inductive Tok : Type where
  | lit : Char → Tok
  | opt : Char → Tok
  | ws : Tok
deriving DecidableEq

/-- backtracking matcher for a list of tail tokens. -/
def matchToks : List Tok → Chars → Option Chars
  | [], l => some l
  | Tok.ws :: ts, l => matchToks ts (skipWS l)
  | Tok.lit c :: ts, l =>
    match litChar c l with
    | some r => matchToks ts r
    | none => none
  | Tok.opt c :: ts, l =>
    match litChar c l with
    | some r =>
      match matchToks ts r with
      | some v => some v
      | none => matchToks ts l
    | none => matchToks ts l

/-- `re.finditer`: all non-overlapping matches, scanning left to right,
continuing after each match (advancing one position when nothing
matches, as Python does).  The matcher returns (rest, value); the
driver reconstructs the matched text (`group(0)`). -/
def findIterAux {V : Type} (m : Chars → Option (Chars × V)) :
    ℕ → Chars → List (Chars × V)
  | 0, _ => []
  | _ + 1, [] =>
    (match m [] with
     | some (_, v) => [([], v)]
     | none => [])
  | fuel + 1, c :: rest =>
    match m (c :: rest) with
    | some (r, v) =>
      let consumed := (c :: rest).take (rest.length + 1 - r.length)
      if r.length ≤ rest.length then (consumed, v) :: findIterAux m fuel r
      else (consumed, v) :: findIterAux m fuel rest
    | none => findIterAux m fuel rest

def findIter {V : Type} (m : Chars → Option (Chars × V)) (l : Chars) :
    List (Chars × V) :=
  findIterAux m (l.length + 1) l

/-- `re.search`: leftmost match only, as (matched text, value). -/
def reSearchAux {V : Type} (m : Chars → Option (Chars × V)) :
    ℕ → Chars → Option (Chars × V)
  | 0, _ => none
  | _ + 1, [] =>
    (match m [] with
     | some (_, v) => some ([], v)
     | none => none)
  | fuel + 1, c :: rest =>
    match m (c :: rest) with
    | some (r, v) => some ((c :: rest).take (rest.length + 1 - r.length), v)
    | none => reSearchAux m fuel rest

def reSearch {V : Type} (m : Chars → Option (Chars × V)) (l : Chars) :
    Option (Chars × V) :=
  reSearchAux m (l.length + 1) l

/-! ## The amount normalizer (`_normalize_amount`, rag_system.py 1170-1358) -/

/-- tail `\s*원?`. -/
def wonTail : List Tok := [Tok.ws, Tok.opt '원']

/-- tail `\s*U\s*원?`. -/
def unitTail (u : Char) : List Tok := [Tok.ws, Tok.lit u, Tok.ws, Tok.opt '원']

/-- tail `\s*A\s*B\s*원?`. -/
def twoUnitTail (a b : Char) : List Tok :=
  [Tok.ws, Tok.lit a, Tok.ws, Tok.lit b, Tok.ws, Tok.opt '원']

/-- a numeric group (`\d{lo,hi}` with optional `(?:,\d{3})*` comma
groups, at least `minCG` of them) followed by a token tail; value is
the parsed integer times `mult`.  Alternatives are tried in Python's
backtracking order: longest digit run first, then most comma groups
first. -/
def numThenToks (lo : ℕ) (hi : Option ℕ) (useCommas : Bool) (minCG : ℕ)
    (toks : List Tok) (mult : ℕ) (l : Chars) : Option (Chars × ℕ) :=
  firstSome (fun p =>
    if useCommas then
      firstSome (fun q =>
        if q.1.length < 3 * minCG then none
        else
          match matchToks toks q.2 with
          | some r => some (r, digitsToNat (p.1 ++ q.1) * mult)
          | none => none) (commaAlts p.2)
    else
      match matchToks toks p.2 with
      | some r => some (r, digitsToNat p.1 * mult)
      | none => none) (digitAlts lo hi l)

/-- a pattern made of a leading literal character and a token tail,
with a fixed value (e.g. `천\s*만\s*원?`). -/
def toksOnly (first : Char) (toks : List Tok) (amt : ℕ) (l : Chars) :
    Option (Chars × ℕ) :=
  match litChar first l with
  | some r =>
    match matchToks toks r with
    | some v => some (v, amt)
    | none => none
  | none => none

/-- range pattern `(\d+)\s*U?\s*~\s*(\d+)\s*U\s*원?`; the converter
uses the second group. -/
def rangeUnitAt (u : Char) (mult : ℕ) (l : Chars) : Option (Chars × ℕ) :=
  firstSome (fun p =>
    match matchToks [Tok.ws, Tok.opt u, Tok.ws, Tok.lit '~', Tok.ws] p.2 with
    | some r3 =>
      firstSome (fun q =>
        match matchToks (unitTail u) q.2 with
        | some r6 => some (r6, digitsToNat q.1 * mult)
        | none => none) (digitAlts 1 none r3)
    | none => none) (digitAlts 1 none l)

def korClass : List Char := ['일', '이', '삼', '사', '오', '육', '칠', '팔', '구']

/-- alternatives of the group `([일이삼사오육칠팔구]?십?)` in Python's
backtracking order. -/
def korAlts (l : Chars) : List (Chars × Chars) :=
  (match l with
   | a :: b :: r =>
     if korClass.contains a && b = '십' then [([a, b], r)] else []
   | _ => []) ++
  (match l with
   | a :: r => if korClass.contains a then [([a], r)] else []
   | _ => []) ++
  (match l with
   | a :: r => if a = '십' then [([a], r)] else []
   | _ => []) ++
  [([], l)]

def korVal (c : Char) : Option ℕ :=
  if c = '일' then some 1 else if c = '이' then some 2
  else if c = '삼' then some 3 else if c = '사' then some 4
  else if c = '오' then some 5 else if c = '육' then some 6
  else if c = '칠' then some 7 else if c = '팔' then some 8
  else if c = '구' then some 9 else if c = '십' then some 10
  else none

/-- `_korean_to_number`: table lookup for a single character, `X십` as
ten times the table value, default 1. -/
def korean_to_number (l : Chars) : ℕ :=
  if l = [] then 1
  else
    match l with
    | [c] => (korVal c).getD 1
    | [a, b] =>
      if a = '십' || b = '십' then ((korVal a).map (fun v => v * 10)).getD 1
      else 1
    | _ => 1

/-- Korean-numeral pattern `([일이삼사오육칠팔구]?십?)\s*U\s*원?`. -/
def korUnitAt (u : Char) (mult : ℕ) (l : Chars) : Option (Chars × ℕ) :=
  firstSome (fun p =>
    match matchToks (unitTail u) p.2 with
    | some r => some (r, korean_to_number p.1 * mult)
    | none => none) (korAlts l)

/-- modifier pattern `W\s*(\d+(?:,\d{3})*)\s*(조|억|만)?\s*원?`; value
is (number, optional unit character). -/
def modifierAt (w : List Char) (l : Chars) : Option (Chars × (ℕ × Option Char)) :=
  match litStr w l with
  | none => none
  | some r1 =>
    firstSome (fun p =>
      firstSome (fun q =>
        let r4 := skipWS q.2
        let pr : Option Char × Chars :=
          match r4 with
          | x :: rr =>
            if x = '조' || x = '억' || x = '만' then (some x, rr) else (none, r4)
          | [] => (none, [])
        some (eatOptChar '원' (skipWS pr.2), (digitsToNat (p.1 ++ q.1), pr.1)))
        (commaAlts p.2)) (digitAlts 1 none (skipWS r1))

/-- unit application of the modifier branch: explicit unit, otherwise
the size heuristic of the source (≥10^6 as-is, ≥1000 as 만원, else as
억원). -/
def modifierAmount (number : ℕ) (unit : Option Char) : ℕ :=
  match unit with
  | some '조' => number * 1000000000000
  | some '억' => number * 100000000
  | some '만' => number * 10000
  | _ =>
    if 1000000 ≤ number then number
    else if 1000 ≤ number then number * 10000
    else number * 100000000

/-- the nine modifier patterns, in source order, with their type word. -/
def modifierWords : List (List Char × String) :=
  [(['최', '대'], "최대"), (['최', '고'], "최대"),
   (['최', '소'], "최소"), (['최', '저'], "최소"),
   (['약'], "약"), (['대', '략'], "약"),
   (['총'], "총"), (['전', '체'], "총"),
   (['규', '모'], "규모")]

/-- the plain amount patterns of `_normalize_amount`, in source order,
with their unit label. -/
def plainPatternList : List ((Chars → Option (Chars × ℕ)) × String) :=
  [ (numThenToks 1 (some 4) true 0 (unitTail '조') 1000000000000, "조원"),
    (numThenToks 1 none false 0 (twoUnitTail '천' '조') 1000000000000000, "천조원"),
    (toksOnly '천' (unitTail '조') 1000000000000000, "천조원"),
    (numThenToks 1 (some 4) true 0 (unitTail '억') 100000000, "억원"),
    (numThenToks 1 none false 0 (twoUnitTail '천' '억') 100000000000, "천억원"),
    (toksOnly '천' (unitTail '억') 100000000000, "천억원"),
    (numThenToks 1 (some 4) true 0 (unitTail '만') 10000, "만원"),
    (numThenToks 1 none false 0 (twoUnitTail '천' '만') 10000000, "천만원"),
    (toksOnly '천' (unitTail '만') 10000000, "천만원"),
    (numThenToks 1 none false 0 (twoUnitTail '백' '만') 1000000, "백만원"),
    (toksOnly '백' (unitTail '만') 1000000, "백만원"),
    (numThenToks 1 (some 3) true 1 [Tok.ws, Tok.lit '원'] 1, "원"),
    (numThenToks 7 none false 0 [Tok.ws, Tok.lit '원'] 1, "원"),
    (toksOnly '수' (twoUnitTail '십' '억') 50000000000, "수십억원"),
    (toksOnly '수' (twoUnitTail '백' '억') 500000000000, "수백억원"),
    (toksOnly '수' (twoUnitTail '천' '억') 5000000000000, "수천억원"),
    (toksOnly '수' (unitTail '조') 5000000000000, "수조원"),
    (toksOnly '십' (unitTail '억') 1000000000, "십억원"),
    (toksOnly '백' (unitTail '억') 10000000000, "백억원"),
    (rangeUnitAt '억' 100000000, "범위_억원"),
    (rangeUnitAt '만' 10000, "범위_만원"),
    (korUnitAt '억' 100000000, "한글_억원"),
    (korUnitAt '만' 10000, "한글_만원") ]

structure AmountEntry : Type where
  amount : ℕ
  text : String
  type : String
  unit : String
deriving DecidableEq

structure AmountInfo : Type where
  amount_value : ℕ
  amount_text : String
  normalized_text : String
  amount_type : String
  all_amounts : List AmountEntry
deriving DecidableEq

/-- all modifier-pattern matches of a text, in source scan order:
(amount, matched text, type word, unit label). -/
def modMatches (text : Chars) : List (ℕ × String × String × String) :=
  (modifierWords.map (fun mw =>
    (findIter (modifierAt mw.1) text).map (fun p =>
      (modifierAmount p.2.1 p.2.2, String.mk p.1, mw.2,
        match p.2.2 with
        | some c => String.mk [c]
        | none => "추정")))).flatten

/-- all plain-pattern matches of a text, in source scan order:
(amount, matched text, unit label). -/
def plainMatches (text : Chars) : List (ℕ × String × String) :=
  (plainPatternList.map (fun pp =>
    (findIter pp.1 text).map (fun p => (p.2, String.mk p.1, pp.2)))).flatten

structure NormState : Type where
  max_amount : ℕ
  max_amount_text : String
  amount_type : String
deriving DecidableEq

/-- running-maximum update of the modifier scan. -/
def modStep (s : NormState) (m : ℕ × String × String × String) : NormState :=
  if s.max_amount < m.1 then
    { max_amount := m.1, max_amount_text := m.2.1, amount_type := m.2.2.1 }
  else s

/-- running-maximum update of the plain scan; note that the source only
ever rewrites `amount_type` to "정확" when it already is "정확", so the
type set by a modifier match survives even when a plain match wins. -/
def plainStep (s : NormState) (m : ℕ × String × String) : NormState :=
  if s.max_amount < m.1 then
    { max_amount := m.1, max_amount_text := m.2.1,
      amount_type := if s.amount_type = "정확" then "정확" else s.amount_type }
  else s

/-- digit grouping of Python's `f"{n:,}"`. -/
def group3Aux : ℕ → Chars → List Chars
  | 0, _ => []
  | _ + 1, [] => []
  | fuel + 1, c :: r => (c :: r).take 3 :: group3Aux fuel ((c :: r).drop 3)

def group3 (l : Chars) : List Chars := group3Aux l.length l

def formatWithCommas (n : ℕ) : String :=
  String.mk
    ((((group3 (toString n).data.reverse).map List.reverse).reverse.intersperse
      [',']).flatten)

/-- normalized rendering of the winning amount (source lines
1327-1346): largest unit, one decimal digit when it does not divide
cleanly. -/
def renderNormalized (v : ℕ) : String :=
  if 1000000000000 ≤ v then
    if v % 1000000000000 = 0 then toString (v / 1000000000000) ++ "조원"
    else toString (v / 1000000000000) ++ "." ++
      toString (v % 1000000000000 / 100000000000) ++ "조원"
  else if 100000000 ≤ v then
    if v % 100000000 = 0 then toString (v / 100000000) ++ "억원"
    else toString (v / 100000000) ++ "." ++
      toString (v % 100000000 / 10000000) ++ "억원"
  else if 10000 ≤ v then
    if v % 10000 = 0 then toString (v / 10000) ++ "만원"
    else toString (v / 10000) ++ "." ++ toString (v % 10000 / 1000) ++ "만원"
  else formatWithCommas v ++ "원"

def emptyAmountInfo : AmountInfo :=
  { amount_value := 0, amount_text := "", normalized_text := "",
    amount_type := "none", all_amounts := [] }

/-- `_normalize_amount`: modifier patterns first, plain patterns
second, keeping the maximum amount (strict improvement, so first found
wins ties). -/
def normalize_amount (text : String) : AmountInfo :=
  if text = "" then emptyAmountInfo
  else
    let tm := modMatches text.data
    let pm := plainMatches text.data
    let s1 := tm.foldl modStep
      { max_amount := 0, max_amount_text := "", amount_type := "정확" }
    let s2 := pm.foldl plainStep s1
    let normalized :=
      if 0 < s2.max_amount then
        if s2.amount_type = "정확" then renderNormalized s2.max_amount
        else s2.amount_type ++ " " ++ renderNormalized s2.max_amount
      else ""
    { amount_value := s2.max_amount, amount_text := s2.max_amount_text,
      normalized_text := normalized, amount_type := s2.amount_type,
      all_amounts :=
        tm.map (fun m => ⟨m.1, m.2.1, m.2.2.1, m.2.2.2⟩) ++
        pm.map (fun m => ⟨m.1, m.2.1, "정확", m.2.2⟩) }

/-! ## The amount-condition extractor
(`_extract_amount_condition_from_query`, rag_system.py 2015-2085) -/

structure AmountCondition : Type where
  min_amount : ℕ
  max_amount : ℕ
  condition_text : String
deriving DecidableEq

/-- pattern prefixed by a literal word (`최소\s*…`). -/
def wordNumToks (w : List Char) (lo : ℕ) (hi : Option ℕ) (useCommas : Bool)
    (toks : List Tok) (mult : ℕ) (l : Chars) : Option (Chars × ℕ) :=
  match litStr w l with
  | some r1 => numThenToks lo hi useCommas 0 toks mult (skipWS r1)
  | none => none

def wordToksOnly (w : List Char) (toks : List Tok) (amt : ℕ) (l : Chars) :
    Option (Chars × ℕ) :=
  match litStr w l with
  | some r =>
    match matchToks toks r with
    | some v => some (v, amt)
    | none => none
  | none => none

/-- tail `\s*억\s*원?\s*이상` with an optional leading `천?`. -/
def sangTailCheonEok : List Tok :=
  [Tok.ws, Tok.opt '천', Tok.ws, Tok.lit '억', Tok.ws, Tok.opt '원',
   Tok.ws, Tok.lit '이', Tok.lit '상']

def sangTail (u : Char) : List Tok :=
  [Tok.ws, Tok.lit u, Tok.ws, Tok.opt '원', Tok.ws, Tok.lit '이', Tok.lit '상']

def sangTail2 (a b : Char) : List Tok :=
  [Tok.ws, Tok.lit a, Tok.ws, Tok.lit b, Tok.ws, Tok.opt '원',
   Tok.ws, Tok.lit '이', Tok.lit '상']

def euiTailCheonEok : List Tok :=
  [Tok.ws, Tok.opt '천', Tok.ws, Tok.lit '억', Tok.ws, Tok.lit '이',
   Tok.lit '상', Tok.opt '의']

def euiTail (u : Char) : List Tok :=
  [Tok.ws, Tok.lit u, Tok.ws, Tok.lit '이', Tok.lit '상', Tok.opt '의']

/-- the twelve explicit amount-condition patterns, in source order. -/
def condPatternList : List (Chars → Option (Chars × ℕ)) :=
  [ numThenToks 1 none false 0 sangTailCheonEok 100000000000,
    toksOnly '천' (sangTail '억') 100000000000,
    numThenToks 1 (some 3) true 0 (sangTail '억') 100000000,
    numThenToks 1 none false 0 (sangTail2 '천' '만') 10000000,
    numThenToks 1 none false 0 (sangTail2 '백' '만') 1000000,
    numThenToks 1 (some 3) true 0 (sangTail '만') 10000,
    wordNumToks ['최', '소'] 1 none false
      [Tok.ws, Tok.opt '천', Tok.ws, Tok.lit '억', Tok.ws, Tok.opt '원']
      100000000000,
    wordToksOnly ['최', '소'] (twoUnitTail '천' '억') 100000000000,
    wordNumToks ['최', '소'] 1 (some 3) true (unitTail '억') 100000000,
    numThenToks 1 none false 0 euiTailCheonEok 100000000000,
    toksOnly '천' (euiTail '억') 100000000000,
    numThenToks 1 (some 3) true 0 (euiTail '억') 100000000 ]

def leadsWith : Chars → Chars → Bool
  | [], _ => true
  | _ :: _, [] => false
  | a :: as, b :: bs => a = b && leadsWith as bs

/-- Python `needle in haystack` on strings. -/
def containsSub (needle : Chars) : Chars → Bool
  | [] => leadsWith needle []
  | c :: rest => leadsWith needle (c :: rest) || containsSub needle rest

def largeScaleWords : List Chars :=
  [['대', '규', '모'], ['큰', ' ', '규', '모'], ['대', '형'],
   ['대', '기', '업'], ['유', '니', '콘']]

def midScaleWords : List Chars :=
  [['중', '규', '모'], ['중', '간', ' ', '규', '모']]

/-- `_extract_amount_condition_from_query`: keep the largest value over
the explicit patterns (strict improvement), falling back to the scale
keywords; `max_amount` is always 0. -/
def extract_amount_condition_from_query (query : String) : AmountCondition :=
  if query = "" then { min_amount := 0, max_amount := 0, condition_text := "" }
  else
    let ql := query.data.map Char.toLower
    let found := condPatternList.foldl (fun (s : ℕ × String) pat =>
      match reSearch pat ql with
      | some (g0, amt) => if s.1 < amt then (amt, String.mk g0) else s
      | none => s) (0, "")
    if found.1 = 0 then
      if largeScaleWords.any (fun k => containsSub k ql) then
        { min_amount := 50000000000, max_amount := 0,
          condition_text := "대규모 지원사업" }
      else if midScaleWords.any (fun k => containsSub k ql) then
        { min_amount := 10000000000, max_amount := 0,
          condition_text := "중규모 지원사업" }
      else { min_amount := 0, max_amount := 0, condition_text := "" }
    else { min_amount := found.1, max_amount := 0, condition_text := found.2 }

/-! ## The deadline analyzer (`_analyze_deadline_status`,
rag_system.py 319-423) -/

/-- the pattern `(\d{8})\s*~\s*(\d{8})`; value is the pair of groups. -/
def ymdAt (l : Chars) : Option (Chars × (Chars × Chars)) :=
  firstSome (fun p =>
    match litChar '~' (skipWS p.2) with
    | some r =>
      firstSome (fun q => some (q.2, (p.1, q.1)))
        (digitAlts 8 (some 8) (skipWS r))
    | none => none) (digitAlts 8 (some 8) l)

/-- the pattern
`(\d{4})\.(\d{1,2})\.(\d{1,2})\s*~\s*(\d{4})\.(\d{1,2})\.(\d{1,2})`;
value is the (year, month, day) groups of the second date. -/
def dottedAt (l : Chars) : Option (Chars × (Chars × Chars × Chars)) :=
  firstSome (fun y1 =>
    match litChar '.' y1.2 with
    | some r1 =>
      firstSome (fun m1 =>
        match litChar '.' m1.2 with
        | some r2 =>
          firstSome (fun d1 =>
            match litChar '~' (skipWS d1.2) with
            | some r3 =>
              firstSome (fun y2 =>
                match litChar '.' y2.2 with
                | some r4 =>
                  firstSome (fun m2 =>
                    match litChar '.' m2.2 with
                    | some r5 =>
                      firstSome (fun d2 => some (d2.2, (y2.1, m2.1, d2.1)))
                        (digitAlts 1 (some 2) r5)
                    | none => none) (digitAlts 1 (some 2) r4)
                | none => none) (digitAlts 4 (some 4) (skipWS r3))
            | none => none) (digitAlts 1 (some 2) r2)
        | none => none) (digitAlts 1 (some 2) r1)
    | none => none) (digitAlts 4 (some 4) l)

def isLeapYear (y : ℤ) : Bool := (y % 4 = 0 && y % 100 ≠ 0) || y % 400 = 0

def daysInMonth (y m : ℤ) : ℤ :=
  if m = 2 then (if isLeapYear y then 29 else 28)
  else if m = 4 || m = 6 || m = 9 || m = 11 then 30
  else 31

/-- the dates `datetime(year, month, day, …)` accepts without raising
`ValueError`. -/
def validDate (y m d : ℤ) : Bool :=
  decide (1 ≤ y) && decide (y ≤ 9999) && decide (1 ≤ m) && decide (m ≤ 12) &&
  decide (1 ≤ d) && decide (d ≤ daysInMonth y m)

/-- proleptic-Gregorian day number of a civil date (days since
1970-01-01), the standard era-based algorithm. -/
def daysFromCivil (y m d : ℤ) : ℤ :=
  let y2 := if m ≤ 2 then y - 1 else y
  let era := Int.fdiv y2 400
  let yoe := y2 - era * 400
  let mAdj := if 2 < m then m - 3 else m + 9
  let doy := Int.fdiv (153 * mAdj + 2) 5 + d - 1
  let doe := yoe * 365 + Int.fdiv yoe 4 - Int.fdiv yoe 100 + doy
  era * 146097 + doe - 719468

/-- a KST wall-clock instant as seconds; differences of these are what
`timedelta` measures between two aware datetimes in the same zone. -/
def civilSecs (y m d h mi s : ℤ) : ℤ :=
  daysFromCivil y m d * 86400 + h * 3600 + mi * 60 + s

structure DeadlineInfo : Type where
  status : String
  days_remaining : Option ℤ
  deadline_date : Option (ℤ × ℤ × ℤ)
  is_expired : Bool
  is_urgent : Bool
deriving DecidableEq

def unknownDeadlineInfo : DeadlineInfo :=
  { status := "unknown", days_remaining := none, deadline_date := none,
    is_expired := false, is_urgent := false }

/-- `(deadline - now).days` for a deadline anchored at 23:59:59 on the
given date: the floor of the difference in seconds over 86400. -/
def deadlineDays (y m d nowSecs : ℤ) : ℤ :=
  Int.fdiv (civilSecs y m d 23 59 59 - nowSecs) 86400

/-- result for a successfully parsed deadline date, anchored at
23:59:59 KST. -/
def mkDeadlineInfo (y m d nowSecs : ℤ) : DeadlineInfo :=
  let days := deadlineDays y m d nowSecs
  { status :=
      if days < 0 then "expired"
      else if days = 0 then "today"
      else if days ≤ 3 then "urgent"
      else if days ≤ 7 then "soon"
      else "active",
    days_remaining := some days,
    deadline_date := some (y, m, d),
    is_expired := decide (days < 0),
    is_urgent := decide (0 ≤ days ∧ days ≤ 3) }

/-- the three integers `int(s[:4]), int(s[4:6]), int(s[6:8])` of an
8-digit group. -/
def parse8 (g : Chars) : ℤ × ℤ × ℤ :=
  ((digitsToNat (g.take 4) : ℤ), (digitsToNat ((g.drop 4).take 2) : ℤ),
   (digitsToNat (g.drop 6) : ℤ))

/-- second `YYYYMMDD` group of the first pattern, when it matches. -/
def findYmd (period : String) : Option Chars :=
  (reSearch ymdAt period.data).map (fun x => x.2.2)

/-- (year, month, day) digit groups of the second date of the dotted
pattern, when it matches. -/
def findDotted (period : String) : Option (Chars × Chars × Chars) :=
  (reSearch dottedAt period.data).map (fun x => x.2)

/-- `_analyze_deadline_status`: try the 8-digit pattern, then the
dotted pattern; an invalid date (ValueError) falls through; no match
gives the unknown default.  Total, so the source's "never raises"
behavior is by construction. -/
def analyze_deadline_status (period : String) (nowSecs : ℤ) : DeadlineInfo :=
  if period = "" then unknownDeadlineInfo
  else
    let tryDotted : DeadlineInfo :=
      match findDotted period with
      | some (yc, mc, dc) =>
        let y : ℤ := digitsToNat yc
        let m : ℤ := digitsToNat mc
        let d : ℤ := digitsToNat dc
        if validDate y m d then mkDeadlineInfo y m d nowSecs
        else unknownDeadlineInfo
      | none => unknownDeadlineInfo
    match findYmd period with
    | some g2 =>
      let p := parse8 g2
      if validDate p.1 p.2.1 p.2.2 then mkDeadlineInfo p.1 p.2.1 p.2.2 nowSecs
      else tryDotted
    | none => tryDotted

/-! ## Candidates and the priority reranker
(`_search_with_application_priority` / `priority_sort_key`,
rag_system.py 852-984) -/

/-- a vector-store search result as the reranker sees it: similarity
score, the ingestion-cached `metadata.amount_value`, the flags computed
by `search_similar` (`is_current_year`, `is_applicable`), the
`deadline_status["status"]` / `["is_urgent"]` fields, identifying
metadata, and the per-query `meets_amount_condition` flag. -/
structure Candidate : Type where
  id : String
  title : String
  organization : String
  score : ℚ
  amount_value : ℤ
  is_current_year : Bool
  is_applicable : Bool
  status : String
  deadline_is_urgent : Bool
  meets_amount_condition : Bool
deriving DecidableEq

/-- the flag stored by the classification loop (source lines 892-907):
`meets_amount_condition = ((min_amount == 0) or (amount_value >=
min_amount)) and amount_value > 0`. -/
def setMeets (min_amount : ℤ) (c : Candidate) : Candidate :=
  { c with meets_amount_condition :=
      (decide (min_amount = 0) || decide (min_amount ≤ c.amount_value)) &&
      decide (0 < c.amount_value) }

/-- the amount-magnitude bonus of `priority_sort_key`:
`min(math.log10(amount_value / 100000000) * 100, 500)` — note there is
no clamp at 0. -/
noncomputable def amountBonus (v : ℤ) : ℝ :=
  min (Real.logb 10 ((v : ℝ) / 100000000) * 100) 500

/-- first accumulation step of `priority_sort_key`: `+2000` when the
amount condition is met, plus the log-scale bonus when the amount is
positive. -/
noncomputable def amountPart (c : Candidate) : ℝ :=
  if c.meets_amount_condition then
    2000 + (if 0 < c.amount_value then amountBonus c.amount_value else 0)
  else 0

/-- second accumulation step: the applicability / current-year tier. -/
def tierBonus (c : Candidate) : ℝ :=
  if c.is_applicable && c.is_current_year then 1000
  else if c.is_applicable then 500
  else if c.is_current_year then 100
  else 10

/-- third accumulation step: the urgency bonus from the deadline
status. -/
def urgencyBonus (c : Candidate) : ℝ :=
  if c.status = "today" then 200
  else if c.status = "urgent" then 100
  else if c.status = "soon" then 50
  else 0

/-- the priority score accumulated by `priority_sort_key` (the source
returns `(-priority_score, -score)` as an ascending sort key). -/
noncomputable def priority_sort_key (c : Candidate) : ℝ :=
  amountPart c + tierBonus c + urgencyBonus c

/-- "a comes weakly before b" under the ascending sort on the key
`(-priority_score, -score)`: higher priority first, similarity only as
the tie-break. -/
def rankLE (a b : Candidate) : Prop :=
  priority_sort_key b < priority_sort_key a ∨
  (priority_sort_key a = priority_sort_key b ∧ b.score ≤ a.score)

noncomputable instance rankLEDec : DecidableRel rankLE :=
  fun _ _ => Classical.propDecidable _

instance rankLETotal : IsTotal Candidate rankLE := by
  constructor
  intro a b
  rcases lt_trichotomy (priority_sort_key a) (priority_sort_key b) with h | h | h
  · exact Or.inr (Or.inl h)
  · rcases le_total b.score a.score with hs | hs
    · exact Or.inl (Or.inr ⟨h, hs⟩)
    · exact Or.inr (Or.inr ⟨h.symm, hs⟩)
  · exact Or.inl (Or.inl h)

instance rankLETrans : IsTrans Candidate rankLE := by
  constructor
  intro a b c hab hbc
  rcases hab with h1 | ⟨h1, s1⟩
  · rcases hbc with h2 | ⟨h2, _⟩
    · exact Or.inl (h2.trans h1)
    · exact Or.inl (h2 ▸ h1)
  · rcases hbc with h2 | ⟨h2, s2⟩
    · exact Or.inl (h1 ▸ h2)
    · exact Or.inr ⟨h1.trans h2, s2.trans s1⟩

/-- `_search_with_application_priority` after the vector store has
returned `all_results`: compute the per-candidate
`meets_amount_condition` flag, sort by the priority key (Python's sort
is stable, as is `insertionSort`), truncate to `top_k`. -/
noncomputable def search_with_application_priority (min_amount : ℤ)
    (top_k : ℕ) (all_results : List Candidate) : List Candidate :=
  ((all_results.map (setMeets min_amount)).insertionSort rankLE).take top_k

/-! ## The confidence estimator (`_calculate_confidence`,
rag_system.py 1102-1127) -/

/-- `_calculate_confidence`: 0 on no results, else a piecewise-linear
map of the maximum similarity score. -/
def calculate_confidence (l : List Candidate) : ℚ :=
  match l with
  | [] => 0
  | c :: cs =>
    let m := cs.foldl (fun acc d => max acc d.score) c.score
    if 0.6 ≤ m then min (0.85 + (m - 0.6) * 0.375) 1
    else if 0.4 ≤ m then 0.6 + (m - 0.4) * 1.25
    else if 0.2 ≤ m then 0.3 + (m - 0.2) * 1.5
    else m * 1.5

/-- Modelled from the spec: the confidence bands of section 4.5,
written from the spec's words for comparison with the source
function. -/
def confidenceBandsSpec (score : ℚ) : ℚ :=
  if 0.6 ≤ score then min (0.85 + (score - 0.6) * 0.375) 1
  else if 0.4 ≤ score then 0.6 + (score - 0.4) * 1.25
  else if 0.2 ≤ score then 0.3 + (score - 0.2) * 1.5
  else score * 1.5

/-! ## Conversation memory (`_update_conversation_memory`,
rag_system.py 986-1005) -/

structure MemoryTurn : Type where
  user_query : String
  response : String
  timestamp : String
  turn : ℕ
deriving DecidableEq

/-- the renumbering loop `for i, memory: memory["turn"] = i + 1`. -/
def renumberFrom (k : ℕ) : List MemoryTurn → List MemoryTurn
  | [] => []
  | t :: ts => { t with turn := k } :: renumberFrom (k + 1) ts

/-- `_update_conversation_memory` with `max_memory_turns = 5`: append a
turn numbered `len + 1`, keep the last 5, renumber 1..5. -/
def update_conversation_memory (mem : List MemoryTurn) (q r ts : String) :
    List MemoryTurn :=
  let mem1 := mem ++ [{ user_query := q, response := r, timestamp := ts,
                        turn := mem.length + 1 }]
  if 5 < mem1.length then renumberFrom 1 (mem1.drop (mem1.length - 5))
  else mem1

/-- a whole session: the fold of `_update_conversation_memory` over a
sequence of (query, response, timestamp) calls starting from the empty
memory. -/
def runMemory (apps : List (String × String × String)) : List MemoryTurn :=
  apps.foldl (fun mem a => update_conversation_memory mem a.1 a.2.1 a.2.2) []

/-! ## `get_response` (rag_system.py 626-684) -/

structure ChatMsg : Type where
  role : String
  content : String
  timestamp : String
deriving DecidableEq

structure RAGState : Type where
  conversation_memory : List MemoryTurn
  chat_history : List ChatMsg
deriving DecidableEq

structure RAGResponse : Type where
  answer : String
  sources : List (String × String × ℚ × String)
  confidence : ℚ
  context_used : Bool
  memory_used : Bool
  applicable_count : ℕ
  urgent_count : ℕ
  total_results : ℕ
  error : Option String
deriving DecidableEq

/-- outcomes of the fallible collaborator calls of one `get_response`
invocation plus the generated answer text (LLM errors are already
absorbed inside `_generate_response_with_memory`, which falls back to
the template, so text generation is total). -/
structure Collaborators : Type where
  embedding : Except String (List ℚ)
  search : Except String (List Candidate)
  response_text : String

/-- `_extract_sources`. -/
def extract_sources (l : List Candidate) : List (String × String × ℚ × String) :=
  l.map (fun r => (r.title, r.organization, r.score, r.id))

/-- `_add_to_chat_history` with its length cap. -/
def add_to_chat_history (h : List ChatMsg) (role content ts : String)
    (maxH : ℕ) : List ChatMsg :=
  let h1 := h ++ [{ role := role, content := content, timestamp := ts }]
  if maxH * 2 < h1.length then h1.drop (h1.length - maxH * 2) else h1

/-- the fixed apology dict of the `except` branch (the source's error
dict carries no count fields; they are 0 here). -/
def errorResponse (e : String) : RAGResponse :=
  { answer := "죄송합니다. 현재 질문에 대한 답변을 생성할 수 없습니다.",
    sources := [], confidence := 0, context_used := false,
    memory_used := false, applicable_count := 0, urgent_count := 0,
    total_results := 0, error := some e }

/-- `get_response`: embedding, search, answer construction, then the
chat-history and conversation-memory updates; any exception from the
steps before answer construction is caught and the apology response
returned with the state exactly as it was.  `context_used` is
`bool(context)` and `_build_context` returns a nonempty string iff the
result list is nonempty. -/
def get_response (co : Collaborators) (st : RAGState) (user_query ts : String)
    (maxH : ℕ) : RAGResponse × RAGState :=
  match co.embedding with
  | Except.error e => (errorResponse e, st)
  | Except.ok _ =>
    match co.search with
    | Except.error e => (errorResponse e, st)
    | Except.ok results =>
      let response_text := co.response_text
      let result : RAGResponse :=
        { answer := response_text,
          sources := extract_sources results,
          confidence := calculate_confidence results,
          context_used := decide (results ≠ []),
          memory_used := decide (0 < st.conversation_memory.length),
          applicable_count := (results.filter (fun r => r.is_applicable)).length,
          urgent_count := (results.filter (fun r => r.deadline_is_urgent)).length,
          total_results := results.length,
          error := none }
      let h1 := add_to_chat_history st.chat_history "user" user_query ts maxH
      let h2 := add_to_chat_history h1 "assistant" response_text ts maxH
      let mem2 := update_conversation_memory st.conversation_memory user_query
        response_text ts
      (result, { conversation_memory := mem2, chat_history := h2 })

/-! ## Claim-side comparison definitions and helper lemmas -/

set_option maxRecDepth 100000

/-- running-maximum step on (value, text) pairs: strict improvement
only, so the first occurrence keeps a tie. -/
def bestStep (p : ℕ × String) (m : ℕ × String) : ℕ × String :=
  if p.1 < m.1 then m else p

/-- the maximum (value, matched text) over a match list, first-found
winning ties. -/
def bestPair (l : List (ℕ × String)) : ℕ × String := l.foldl bestStep (0, "")

/-- every match of `_normalize_amount` as a (value, matched text) pair,
modifier matches first, in scan order. -/
def allMatchPairs (text : String) : List (ℕ × String) :=
  (modMatches text.data).map (fun m => (m.1, m.2.1)) ++
  (plainMatches text.data).map (fun m => (m.1, m.2.1))

/-- state after the modifier scan alone. -/
def modPhase (text : Chars) : NormState :=
  (modMatches text).foldl modStep
    { max_amount := 0, max_amount_text := "", amount_type := "정확" }

theorem plainStep_type (s : NormState) (m : ℕ × String × String) :
    (plainStep s m).amount_type = s.amount_type := by
  unfold plainStep
  by_cases h : s.max_amount < m.1
  · rw [if_pos h]
    by_cases h2 : s.amount_type = "정확"
    · simp [h2]
    · simp [h2]
  · rw [if_neg h]

theorem plainFold_type (l : List (ℕ × String × String)) (s : NormState) :
    (l.foldl plainStep s).amount_type = s.amount_type := by
  induction l generalizing s with
  | nil => rfl
  | cons m t ih => rw [List.foldl_cons, ih, plainStep_type]

theorem modFold_pair (l : List (ℕ × String × String × String)) (s : NormState) :
    ((l.foldl modStep s).max_amount, (l.foldl modStep s).max_amount_text) =
      (l.map (fun m => (m.1, m.2.1))).foldl bestStep
        (s.max_amount, s.max_amount_text) := by
  induction l generalizing s with
  | nil => rfl
  | cons m t ih =>
    rw [List.foldl_cons, List.map_cons, List.foldl_cons, ih]
    congr 1
    unfold modStep bestStep
    by_cases h : s.max_amount < m.1
    · simp [h]
    · simp [h]

theorem plainFold_pair (l : List (ℕ × String × String)) (s : NormState) :
    ((l.foldl plainStep s).max_amount, (l.foldl plainStep s).max_amount_text) =
      (l.map (fun m => (m.1, m.2.1))).foldl bestStep
        (s.max_amount, s.max_amount_text) := by
  induction l generalizing s with
  | nil => rfl
  | cons m t ih =>
    rw [List.foldl_cons, List.map_cons, List.foldl_cons, ih]
    congr 1
    unfold plainStep bestStep
    by_cases h : s.max_amount < m.1
    · simp [h]
    · simp [h]

theorem normalize_amount_fields (text : String) (h : text ≠ "") :
    (normalize_amount text).amount_value =
      ((plainMatches text.data).foldl plainStep (modPhase text.data)).max_amount ∧
    (normalize_amount text).amount_text =
      ((plainMatches text.data).foldl plainStep (modPhase text.data)).max_amount_text ∧
    (normalize_amount text).amount_type =
      ((plainMatches text.data).foldl plainStep (modPhase text.data)).amount_type := by
  unfold normalize_amount modPhase
  rw [if_neg h]
  exact ⟨rfl, rfl, rfl⟩

/-! ## C1 -/

/-- C1: evaluation of `_normalize_amount` on the failing input
"최대 5천만원 지원".  The modifier regex only captures "최대 5" (its
optional unit group does not recognize the compound unit 천만), and the
no-unit heuristic then reads the bare 5 as 5억, so `amount_value` is
500000000 — not the 50000000 the claim (and the plain-pattern scan of
the very same source, visible in `all_amounts`) gives the phrase
5천만원.  `amount_type` "최대" (max) and the max-prefixed
`normalized_text` do hold. -/
theorem c1_normalize_amount_eval :
    normalize_amount "최대 5천만원 지원" =
      { amount_value := 500000000, amount_text := "최대 5",
        normalized_text := "최대 5억원", amount_type := "최대",
        all_amounts :=
          [{ amount := 500000000, text := "최대 5", type := "최대", unit := "추정" },
           { amount := 50000000, text := "5천만원", type := "정확", unit := "천만원" },
           { amount := 10000000, text := "천만원", type := "정확", unit := "천만원" },
           { amount := 10000, text := "만원", type := "정확", unit := "한글_만원" }] } :=
  rfl

/-! ## C2 -/

/-- C2 counterexample: in "최대 1억원 및 10억원" the winning (maximum)
match is the plain, unmodified "10억원" — recorded with type "정확"
(exact) in `all_amounts` — yet the returned `amount_type` is still
"최대" from the earlier, smaller modifier match, contradicting the
claim that the type follows whichever match produced the maximum. -/
theorem c2_counterexample :
    (normalize_amount "최대 1억원 및 10억원").amount_value = 1000000000 ∧
    (normalize_amount "최대 1억원 및 10억원").amount_text = "10억원" ∧
    { amount := 1000000000, text := "10억원", type := "정확", unit := "억원" } ∈
      (normalize_amount "최대 1억원 및 10억원").all_amounts ∧
    (normalize_amount "최대 1억원 및 10억원").amount_type = "최대" :=
  ⟨rfl, rfl, by decide, rfl⟩

/-- C2 amended: for every nonempty text, `amount_value` and
`amount_text` are the running maximum over all matches (modifier scan
first, then plain scan, first-found keeping ties), but `amount_type` is
decided by the modifier scan alone — it is the type of the modifier
match holding the running maximum at the end of the modifier phase
("정확"/exact if no modifier matched), and a later larger plain match
updates the value and text without ever updating the type. -/
theorem c2_amount_type_follows_modifier_phase (text : String) (h : text ≠ "") :
    (normalize_amount text).amount_value = (bestPair (allMatchPairs text)).1 ∧
    (normalize_amount text).amount_text = (bestPair (allMatchPairs text)).2 ∧
    (normalize_amount text).amount_type = (modPhase text.data).amount_type := by
  obtain ⟨e1, e2, e3⟩ := normalize_amount_fields text h
  have hpair :
      ((( plainMatches text.data).foldl plainStep (modPhase text.data)).max_amount,
       (((plainMatches text.data)).foldl plainStep (modPhase text.data)).max_amount_text) =
        bestPair (allMatchPairs text) := by
    rw [plainFold_pair]
    unfold bestPair allMatchPairs modPhase
    rw [List.foldl_append]
    congr 1
    exact modFold_pair (modMatches text.data)
      { max_amount := 0, max_amount_text := "", amount_type := "정확" }
  refine ⟨?_, ?_, ?_⟩
  · rw [e1, ← hpair]
  · rw [e2]
    have := congrArg Prod.snd hpair
    simpa using this
  · rw [e3, plainFold_type]

/-! ## C3 -/

/-- C3: evaluation of `_extract_amount_condition_from_query` on the
failing input "1000억 이상의 지원사업 알려줘".  The first pattern
`(\d+)\s*천?\s*억\s*원?\s*이상` makes the `천` optional but still
multiplies by 10^11, so "1000억" is read as 1000 × 10^11 =
100000000000000 (100조), not the 1000 × 10^8 = 100000000000 the claim
states (and the source's own `(\d{1,3}(?:,\d{3})*)\s*억…` pattern with
its 10^8 conversion was written for).  `max_amount` is 0 as claimed. -/
theorem c3_extract_amount_condition_eval :
    extract_amount_condition_from_query "1000억 이상의 지원사업 알려줘" =
      { min_amount := 100000000000000, max_amount := 0,
        condition_text := "1000억 이상" } :=
  rfl

/-! ## C5 -/

/-- the spec's `meets_amount_condition` predicate as stated (for
comparison with the flag the source stores). -/
def claimMeetsAmountCondition (min_amount : ℤ) (c : Candidate) : Prop :=
  min_amount = 0 ∨ (0 < c.amount_value ∧ min_amount ≤ c.amount_value)

def c5cand : Candidate :=
  { id := "", title := "", organization := "", score := 0, amount_value := 0,
    is_current_year := false, is_applicable := true, status := "active",
    deadline_is_urgent := false, meets_amount_condition := false }

/-- C5 counterexample: with `min_amount = 0` and a candidate whose
`amount_value` is 0, the claim's predicate is true but the flag the
reranker stores and uses is false, because the source conjoins
`and amount_value > 0` when storing it. -/
theorem c5_counterexample :
    claimMeetsAmountCondition 0 c5cand ∧
    (setMeets 0 c5cand).meets_amount_condition = false :=
  ⟨Or.inl rfl, rfl⟩

/-- C5 amended: the stored `meets_amount_condition` flag is true iff
`amount_value > 0` AND (`min_amount == 0` OR `amount_value ≥
min_amount`); in particular it is false for a candidate with
`amount_value = 0` even when `min_amount = 0`. -/
theorem c5_meets_amount_condition (min_amount : ℤ) (c : Candidate) :
    (setMeets min_amount c).meets_amount_condition = true ↔
      (0 < c.amount_value ∧ (min_amount = 0 ∨ min_amount ≤ c.amount_value)) := by
  simp only [setMeets, Bool.and_eq_true, Bool.or_eq_true, decide_eq_true_iff]
  tauto

/-- C2 witness: the amended statement instantiated at a concrete
nonempty text. -/
theorem c2_witness :
    ("최대 1억원 및 10억원" ≠ "") ∧
    ((normalize_amount "최대 1억원 및 10억원").amount_value =
        (bestPair (allMatchPairs "최대 1억원 및 10억원")).1 ∧
      (normalize_amount "최대 1억원 및 10억원").amount_text =
        (bestPair (allMatchPairs "최대 1억원 및 10억원")).2 ∧
      (normalize_amount "최대 1억원 및 10억원").amount_type =
        (modPhase "최대 1억원 및 10억원".data).amount_type) :=
  ⟨by decide, c2_amount_type_follows_modifier_phase "최대 1억원 및 10억원" (by decide)⟩

/-! ## C8 -/

theorem foldl_max_facts (cs : List Candidate) (a : ℚ) :
    (cs.foldl (fun acc d => max acc d.score) a = a ∨
      ∃ d ∈ cs, cs.foldl (fun acc d => max acc d.score) a = d.score) ∧
    a ≤ cs.foldl (fun acc d => max acc d.score) a ∧
    ∀ d ∈ cs, d.score ≤ cs.foldl (fun acc d => max acc d.score) a := by
  induction cs generalizing a with
  | nil => exact ⟨Or.inl rfl, le_refl a, by simp⟩
  | cons c t ih =>
    obtain ⟨hmem, hle, hub⟩ := ih (max a c.score)
    rw [List.foldl_cons]
    refine ⟨?_, ?_, ?_⟩
    · rcases hmem with h | ⟨d, hd, heq⟩
      · rcases max_cases a c.score with ⟨hm, _⟩ | ⟨hm, _⟩
        · left; rw [h, hm]
        · right; exact ⟨c, by simp, by rw [h, hm]⟩
      · right; exact ⟨d, by simp [hd], heq⟩
    · exact (le_max_left a c.score).trans hle
    · intro d hd
      rcases List.mem_cons.mp hd with h1 | h1
      · subst h1; exact (le_max_right a d.score).trans hle
      · exact hub d h1

/-- C8: the confidence is the spec's piecewise-linear band function
applied to the maximum `similarity_score` over the whole candidate
list (an element achieving the maximum exists and bounds every other
score), and the empty list gives 0. -/
theorem c8_confidence_of_max_score (l : List Candidate) (h : l ≠ []) :
    calculate_confidence [] = 0 ∧
    ∃ c ∈ l, (∀ d ∈ l, d.score ≤ c.score) ∧
      calculate_confidence l = confidenceBandsSpec c.score := by
  refine ⟨rfl, ?_⟩
  match l with
  | [] => exact absurd rfl h
  | c :: cs =>
    obtain ⟨hmem, hle, hub⟩ := foldl_max_facts cs c.score
    have heq : calculate_confidence (c :: cs) =
        confidenceBandsSpec (cs.foldl (fun acc d => max acc d.score) c.score) := rfl
    have hub' : ∀ d ∈ c :: cs,
        d.score ≤ cs.foldl (fun acc d => max acc d.score) c.score := by
      intro d hd
      rcases List.mem_cons.mp hd with h1 | h1
      · subst h1; exact hle
      · exact hub d h1
    rcases hmem with hm | ⟨d, hd, hm⟩
    · refine ⟨c, by simp, ?_, ?_⟩
      · intro d hd
        exact (hub' d hd).trans hm.le
      · rw [heq, hm]
    · refine ⟨d, by simp [hd], ?_, ?_⟩
      · intro d2 hd2
        exact (hub' d2 hd2).trans hm.le
      · rw [heq, hm]

def c8cand : Candidate :=
  { id := "x", title := "", organization := "", score := 0.7, amount_value := 0,
    is_current_year := true, is_applicable := true, status := "active",
    deadline_is_urgent := false, meets_amount_condition := false }

/-- C8 witness: the theorem instantiated at a one-element list. -/
theorem c8_witness :
    ([c8cand] ≠ []) ∧
    (calculate_confidence [] = 0 ∧
      ∃ c ∈ [c8cand], (∀ d ∈ [c8cand], d.score ≤ c.score) ∧
        calculate_confidence [c8cand] = confidenceBandsSpec c.score) :=
  ⟨by decide, c8_confidence_of_max_score [c8cand] (by decide)⟩

/-! ## C9 -/

theorem renumberFrom_length (k : ℕ) (l : List MemoryTurn) :
    (renumberFrom k l).length = l.length := by
  induction l generalizing k with
  | nil => rfl
  | cons t ts ih => simp [renumberFrom, ih]

theorem renumberFrom_map_turn (k : ℕ) (l : List MemoryTurn) :
    (renumberFrom k l).map MemoryTurn.turn = List.range' k l.length := by
  induction l generalizing k with
  | nil => rfl
  | cons t ts ih => simp [renumberFrom, List.range'_succ, ih]

theorem renumberFrom_map_qr (k : ℕ) (l : List MemoryTurn) :
    (renumberFrom k l).map (fun t => (t.user_query, t.response)) =
      l.map (fun t => (t.user_query, t.response)) := by
  induction l generalizing k with
  | nil => rfl
  | cons t ts ih => simp [renumberFrom, ih]

def apps7 : List (String × String × String) :=
  [("q1", "r1", "t1"), ("q2", "r2", "t2"), ("q3", "r3", "t3"),
   ("q4", "r4", "t4"), ("q5", "r5", "t5"), ("q6", "r6", "t6"),
   ("q7", "r7", "t7")]

/-- C9: after any sequence of `append` calls the memory holds
`min n 5` turns, their turn numbers are densely 1..length in order, and
their contents are exactly the most recent appends in FIFO order; in
particular after the seven concrete appends `apps7` the memory is
appends 3-7 renumbered 1..5. -/
theorem c9_conversation_memory (apps : List (String × String × String)) :
    (runMemory apps).length = min apps.length 5 ∧
    (runMemory apps).map MemoryTurn.turn = List.range' 1 (runMemory apps).length ∧
    (runMemory apps).map (fun t => (t.user_query, t.response)) =
      (apps.map (fun a => (a.1, a.2.1))).drop (apps.length - 5) ∧
    runMemory apps7 =
      [{ user_query := "q3", response := "r3", timestamp := "t3", turn := 1 },
       { user_query := "q4", response := "r4", timestamp := "t4", turn := 2 },
       { user_query := "q5", response := "r5", timestamp := "t5", turn := 3 },
       { user_query := "q6", response := "r6", timestamp := "t6", turn := 4 },
       { user_query := "q7", response := "r7", timestamp := "t7", turn := 5 }] := by
  have main : ∀ apps : List (String × String × String),
      (runMemory apps).length = min apps.length 5 ∧
      (runMemory apps).map MemoryTurn.turn =
        List.range' 1 (runMemory apps).length ∧
      (runMemory apps).map (fun t => (t.user_query, t.response)) =
        (apps.map (fun a => (a.1, a.2.1))).drop (apps.length - 5) := by
    intro apps
    induction apps using List.reverseRecOn with
    | nil => exact ⟨by simp [runMemory], rfl, rfl⟩
    | append_singleton as a ih =>
      obtain ⟨ihl, iht, ihc⟩ := ih
      have hrun : runMemory (as ++ [a]) =
          update_conversation_memory (runMemory as) a.1 a.2.1 a.2.2 := by
        simp [runMemory, List.foldl_append]
      set m := runMemory as with hm
      set n := as.length with hn
      set newT : MemoryTurn :=
        { user_query := a.1, response := a.2.1, timestamp := a.2.2,
          turn := m.length + 1 } with hnewT
      have hupd : update_conversation_memory m a.1 a.2.1 a.2.2 =
          if 5 < (m ++ [newT]).length then
            renumberFrom 1 ((m ++ [newT]).drop ((m ++ [newT]).length - 5))
          else m ++ [newT] := rfl
      by_cases hc : as.length < 5
      · have hml : m.length = n := by rw [ihl]; omega
        have hnot : ¬ 5 < (m ++ [newT]).length := by
          simp [List.length_append, hml]; omega
        rw [hrun, hupd, if_neg hnot]
        refine ⟨?_, ?_, ?_⟩
        · simp [List.length_append, hml]; omega
        · rw [List.map_append, iht, List.length_append]
          simp only [List.map_cons, List.map_nil]
          rw [hml, List.length_singleton]
          have : List.range' 1 (n + 1) = List.range' 1 n ++ [1 + n] :=
            List.range'_1_concat 1 n
          rw [this]
          congr 2
          omega
        · rw [List.map_append, ihc, List.map_append]
          simp only [List.map_cons, List.map_nil]
          have h1 : n - 5 = 0 := by omega
          have h3 : (as ++ [a]).length - 5 = 0 := by
            simp only [List.length_append, List.length_singleton]
            omega
          rw [h1, h3]
          simp
      · have hml : m.length = 5 := by rw [ihl]; omega
        have hyes : 5 < (m ++ [newT]).length := by
          simp [List.length_append, hml]
        have hdrop1 : (m ++ [newT]).length - 5 = 1 := by
          simp [List.length_append, hml]
        rw [hrun, hupd, if_pos hyes, hdrop1]
        have hsplit : (m ++ [newT]).drop 1 = m.drop 1 ++ [newT] :=
          List.drop_append_of_le_length (by omega)
        have hlen5 : (renumberFrom 1 ((m ++ [newT]).drop 1)).length = 5 := by
          rw [renumberFrom_length, hsplit]
          simp [List.length_append, hml]
        refine ⟨?_, ?_, ?_⟩
        · rw [hlen5]
          simp only [List.length_append, List.length_singleton]
          omega
        · rw [renumberFrom_map_turn, hlen5, hsplit]
          simp [List.length_append, hml]
        · rw [renumberFrom_map_qr, hsplit, List.map_append, List.map_drop, ihc,
            List.drop_drop, List.map_append]
          simp only [List.map_cons, List.map_nil]
          have h1 : n - 5 + 1 = (as ++ [a]).length - 5 := by
            simp only [List.length_append, List.length_singleton]
            omega
          rw [h1]
          have h2 : (as ++ [a]).length - 5 ≤
              (as.map (fun a => (a.1, a.2.1))).length := by
            simp only [List.length_append, List.length_singleton,
              List.length_map]
            omega
          rw [List.drop_append_of_le_length h2]
  exact ⟨(main apps).1, (main apps).2.1, (main apps).2.2, rfl⟩

/-! ## C10 -/

/-- C10: when embedding creation fails, or embedding succeeds and the
vector-store search fails, `get_response` returns exactly the apology
response — fixed answer, confidence 0, no sources, the error recorded —
and both the conversation memory and the chat history are returned
unchanged: no turn is appended for the failed query. -/
theorem c10_error_atomicity (co : Collaborators) (st : RAGState)
    (q ts : String) (maxH : ℕ) (e : String)
    (h : co.embedding = Except.error e ∨
      ((∃ emb, co.embedding = Except.ok emb) ∧ co.search = Except.error e)) :
    get_response co st q ts maxH = (errorResponse e, st) ∧
    (get_response co st q ts maxH).1.answer =
      "죄송합니다. 현재 질문에 대한 답변을 생성할 수 없습니다." ∧
    (get_response co st q ts maxH).1.confidence = 0 ∧
    (get_response co st q ts maxH).1.sources = [] ∧
    (get_response co st q ts maxH).1.error = some e ∧
    (get_response co st q ts maxH).2.conversation_memory =
      st.conversation_memory ∧
    (get_response co st q ts maxH).2.chat_history = st.chat_history := by
  have hmain : get_response co st q ts maxH = (errorResponse e, st) := by
    rcases h with h | ⟨⟨emb, he⟩, hs⟩
    · unfold get_response
      rw [h]
    · unfold get_response
      rw [he, hs]
  rw [hmain]
  exact ⟨rfl, rfl, rfl, rfl, rfl, rfl, rfl⟩

def c10co : Collaborators :=
  { embedding := Except.error "network down", search := Except.ok [],
    response_text := "" }

def c10st : RAGState :=
  { conversation_memory :=
      [{ user_query := "이전 질문", response := "이전 답변",
         timestamp := "t0", turn := 1 }],
    chat_history := [] }

/-- C10 witness: a failed embedding call on a state with one stored
turn leaves the state untouched and returns the apology response. -/
theorem c10_witness :
    (c10co.embedding = Except.error "network down" ∨
      ((∃ emb, c10co.embedding = Except.ok emb) ∧
        c10co.search = Except.error "network down")) ∧
    get_response c10co c10st "새 질문" "t1" 10 =
      (errorResponse "network down", c10st) :=
  ⟨Or.inl rfl,
    (c10_error_atomicity c10co c10st "새 질문" "t1" 10 "network down"
      (Or.inl rfl)).1⟩

/-! ## C7 -/

/-- the spec's status table, in its stated priority order. -/
def statusWordSpec (days : ℤ) : String :=
  if days < 0 then "expired"
  else if days = 0 then "today"
  else if days ≤ 3 then "urgent"
  else if days ≤ 7 then "soon"
  else "active"

theorem mkDeadlineInfo_fields (y m d now : ℤ) :
    (mkDeadlineInfo y m d now).days_remaining = some (deadlineDays y m d now) ∧
    (mkDeadlineInfo y m d now).deadline_date = some (y, m, d) ∧
    ((mkDeadlineInfo y m d now).is_expired = true ↔
      deadlineDays y m d now < 0) ∧
    ((mkDeadlineInfo y m d now).is_urgent = true ↔
      0 ≤ deadlineDays y m d now ∧ deadlineDays y m d now ≤ 3) ∧
    (mkDeadlineInfo y m d now).status = statusWordSpec (deadlineDays y m d now) := by
  refine ⟨rfl, rfl, ?_, ?_, rfl⟩
  · simp [mkDeadlineInfo]
  · simp [mkDeadlineInfo]

/-- C7: for every period string and every `now`, the analyzer (1) on an
8-digit `YYYYMMDD ~ YYYYMMDD` match with a valid second date anchors
the deadline at 23:59:59 KST on that date; (2) failing that (no 8-digit
match, or an invalid date such as day 32), it uses the dotted
`YYYY.MM.DD ~ YYYY.MM.DD` match the same way; (3) when neither yields a
valid date — including the empty string — it returns the unknown
default with null fields and false flags, and being a total function it
never raises.  In the successful cases `days_remaining` is the
floor-by-86400-seconds whole-day difference, `is_expired` ⇔ days < 0,
`is_urgent` ⇔ 0 ≤ days ≤ 3, and the status follows the spec's table. -/
theorem c7_deadline_analyzer (period : String) (now : ℤ) :
    (∀ g, period ≠ "" → findYmd period = some g →
      validDate (parse8 g).1 (parse8 g).2.1 (parse8 g).2.2 = true →
      analyze_deadline_status period now =
        mkDeadlineInfo (parse8 g).1 (parse8 g).2.1 (parse8 g).2.2 now) ∧
    (∀ yc mc dc, period ≠ "" →
      (findYmd period = none ∨
        ∃ g, findYmd period = some g ∧
          validDate (parse8 g).1 (parse8 g).2.1 (parse8 g).2.2 = false) →
      findDotted period = some (yc, mc, dc) →
      validDate (digitsToNat yc) (digitsToNat mc) (digitsToNat dc) = true →
      analyze_deadline_status period now =
        mkDeadlineInfo (digitsToNat yc) (digitsToNat mc) (digitsToNat dc) now) ∧
    ((period = "" ∨
      ((findYmd period = none ∨
         ∃ g, findYmd period = some g ∧
           validDate (parse8 g).1 (parse8 g).2.1 (parse8 g).2.2 = false) ∧
       (findDotted period = none ∨
         ∃ t, findDotted period = some t ∧
           validDate (digitsToNat t.1) (digitsToNat t.2.1)
             (digitsToNat t.2.2) = false))) →
      analyze_deadline_status period now = unknownDeadlineInfo) ∧
    (∀ y m d,
      (mkDeadlineInfo y m d now).days_remaining =
        some (deadlineDays y m d now) ∧
      (mkDeadlineInfo y m d now).deadline_date = some (y, m, d) ∧
      ((mkDeadlineInfo y m d now).is_expired = true ↔
        deadlineDays y m d now < 0) ∧
      ((mkDeadlineInfo y m d now).is_urgent = true ↔
        0 ≤ deadlineDays y m d now ∧ deadlineDays y m d now ≤ 3) ∧
      (mkDeadlineInfo y m d now).status =
        statusWordSpec (deadlineDays y m d now)) := by
  refine ⟨?_, ?_, ?_, fun y m d => mkDeadlineInfo_fields y m d now⟩
  · intro g hne hfind hvalid
    unfold analyze_deadline_status
    rw [if_neg hne, hfind]
    simp [hvalid]
  · intro yc mc dc hne hy hd hv
    unfold analyze_deadline_status
    rw [if_neg hne]
    rcases hy with hy | ⟨g, hg, hginv⟩
    · rw [hy, hd]
      simp [hv]
    · rw [hg, hd]
      simp [hginv, hv]
  · intro h
    by_cases hne : period = ""
    · unfold analyze_deadline_status
      rw [if_pos hne]
    · rcases h with h | ⟨hy, hd⟩
      · exact absurd h hne
      · unfold analyze_deadline_status
        rw [if_neg hne]
        rcases hy with hy | ⟨g, hg, hginv⟩ <;>
          rcases hd with hd | ⟨t, ht, htinv⟩
        · rw [hy, hd]
        · rw [hy, ht]
          simp [htinv]
        · rw [hg, hd]
          simp [hginv]
        · rw [hg, ht]
          simp [hginv, htinv]

def c7period : String := "20250101 ~ 20250110"

def c7now : ℤ := civilSecs 2025 1 10 9 0 0

def c7g : Chars := ['2', '0', '2', '5', '0', '1', '1', '0']

/-- C7 witness: the spec's example — deadline 2025-01-10 at 23:59:59
KST, now 2025-01-10 09:00 KST — gives status "today" with zero days
remaining. -/
theorem c7_witness :
    (c7period ≠ "") ∧ findYmd c7period = some c7g ∧
    validDate (parse8 c7g).1 (parse8 c7g).2.1 (parse8 c7g).2.2 = true ∧
    analyze_deadline_status c7period c7now =
      mkDeadlineInfo (parse8 c7g).1 (parse8 c7g).2.1 (parse8 c7g).2.2 c7now ∧
    (analyze_deadline_status c7period c7now).status = "today" ∧
    (analyze_deadline_status c7period c7now).days_remaining = some 0 ∧
    (analyze_deadline_status c7period c7now).is_expired = false := by
  have h := (c7_deadline_analyzer c7period c7now).1 c7g (by decide) rfl rfl
  refine ⟨by decide, rfl, rfl, h, ?_, ?_, ?_⟩
  · rw [h]; rfl
  · rw [h]; rfl
  · rw [h]; rfl

/-! ## C6 -/

/-- the spec's amount-magnitude bonus as stated: clamped below at 0. -/
noncomputable def claimAmountBonus (v : ℤ) : ℝ :=
  min 500 (max 0 (Real.logb 10 ((v : ℝ) / 100000000) * 100))

def c6cand : Candidate :=
  { id := "", title := "", organization := "", score := 0,
    amount_value := 10000000, is_current_year := false,
    is_applicable := false, status := "expired",
    deadline_is_urgent := false, meets_amount_condition := true }

/-- C6 counterexample: at `amount_value = 10^7` (천만원, which is
≤ 10^8) the source's bonus is `min(log10(0.1)·100, 500) = -100`, not
the 0 the claim's `max(0, ·)` clamp would give; the whole priority
score of such a candidate is 2000 - 100 + 10 + 0 = 1910 instead of the
claimed 2010. -/
theorem c6_counterexample :
    amountBonus 10000000 = -100 ∧ amountBonus 10000000 < 0 ∧
    claimAmountBonus 10000000 = 0 ∧
    priority_sort_key c6cand = 1910 := by
  have h1 : ((10000000 : ℤ) : ℝ) / 100000000 = (10 : ℝ)⁻¹ := by norm_num
  have hlog : Real.logb 10 (((10000000 : ℤ) : ℝ) / 100000000) = -1 := by
    rw [h1, Real.logb_inv, Real.logb_self_eq_one (by norm_num)]
  have hb : amountBonus 10000000 = -100 := by
    unfold amountBonus
    rw [hlog]
    rw [show ((-1 : ℝ) * 100) = -100 by norm_num]
    exact min_eq_left (by norm_num)
  have hcb : claimAmountBonus 10000000 = 0 := by
    unfold claimAmountBonus
    rw [hlog]
    rw [show ((-1 : ℝ) * 100) = -100 by norm_num]
    rw [show max (0 : ℝ) (-100) = 0 from max_eq_left (by norm_num)]
    exact min_eq_right (by norm_num)
  refine ⟨hb, by rw [hb]; norm_num, hcb, ?_⟩
  have hm : c6cand.meets_amount_condition = true := rfl
  have hav : c6cand.amount_value = 10000000 := rfl
  have hia : c6cand.is_applicable = false := rfl
  have hic : c6cand.is_current_year = false := rfl
  have hst : c6cand.status = "expired" := rfl
  unfold priority_sort_key amountPart tierBonus urgencyBonus
  rw [hm, hav, hia, hic, hst]
  simp only [if_true]
  rw [if_pos (by norm_num : (0 : ℤ) < 10000000), hb]
  norm_num
  rw [if_neg (show ¬ (("expired" : String) = "today") by decide),
    if_neg (show ¬ (("expired" : String) = "urgent") by decide),
    if_neg (show ¬ (("expired" : String) = "soon") by decide)]

/-- C6 amended: for a candidate meeting the amount condition with a
positive amount, the priority score is 2000 plus the bonus
`min(log10(amount_value/10^8)·100, 500)` plus the tier and urgency
bonuses; the bonus has no lower clamp — it is 0 exactly at
`amount_value = 10^8`, strictly negative for `0 < amount_value < 10^8`,
and nonnegative only from 10^8 up. -/
theorem c6_amount_bonus_unclamped (v : ℤ) (hv : 0 < v) :
    (∀ c : Candidate, c.meets_amount_condition = true → 0 < c.amount_value →
      priority_sort_key c =
        2000 + amountBonus c.amount_value + tierBonus c + urgencyBonus c) ∧
    amountBonus 100000000 = 0 ∧
    (v < 100000000 → amountBonus v < 0) ∧
    (100000000 ≤ v → 0 ≤ amountBonus v) := by
  refine ⟨?_, ?_, ?_, ?_⟩
  · intro c hm ha
    unfold priority_sort_key amountPart
    rw [hm]
    simp only [if_true]
    rw [if_pos ha]
  · unfold amountBonus
    rw [show ((100000000 : ℤ) : ℝ) / 100000000 = 1 by norm_num, Real.logb_one,
      zero_mul]
    exact min_eq_left (by norm_num)
  · intro hlt
    unfold amountBonus
    have hx0 : (0 : ℝ) < (v : ℝ) / 100000000 :=
      div_pos (by exact_mod_cast hv) (by norm_num)
    have hx1 : (v : ℝ) / 100000000 < 1 := by
      rw [div_lt_one (by norm_num)]
      exact_mod_cast hlt
    have hneg := Real.logb_neg (by norm_num : (1 : ℝ) < 10) hx0 hx1
    have hneg2 : Real.logb 10 ((v : ℝ) / 100000000) * 100 < 0 :=
      mul_neg_of_neg_of_pos hneg (by norm_num)
    exact lt_of_le_of_lt (min_le_left _ _) hneg2
  · intro hge
    unfold amountBonus
    have hx1 : (1 : ℝ) ≤ (v : ℝ) / 100000000 := by
      rw [one_le_div (by norm_num : (0 : ℝ) < 100000000)]
      exact_mod_cast hge
    have hge2 : 0 ≤ Real.logb 10 ((v : ℝ) / 100000000) * 100 :=
      mul_nonneg (Real.logb_nonneg (by norm_num : (1 : ℝ) < 10) hx1)
        (by norm_num)
    exact le_min hge2 (by norm_num)

/-- C6 witness: the amended statement instantiated at
`amount_value = 10^7`. -/
theorem c6_witness :
    ((0 : ℤ) < 10000000) ∧
    ((∀ c : Candidate, c.meets_amount_condition = true → 0 < c.amount_value →
        priority_sort_key c =
          2000 + amountBonus c.amount_value + tierBonus c + urgencyBonus c) ∧
      amountBonus 100000000 = 0 ∧
      ((10000000 : ℤ) < 100000000 → amountBonus 10000000 < 0) ∧
      ((100000000 : ℤ) ≤ 10000000 → 0 ≤ amountBonus 10000000)) :=
  ⟨by norm_num, c6_amount_bonus_unclamped 10000000 (by norm_num)⟩

/-! ## C4 -/

theorem priority_active_gt_expired (mA : ℤ) (a b : Candidate)
    (hav : a.amount_value = b.amount_value)
    (hast : a.status = "active") (haap : a.is_applicable = true)
    (hbst : b.status = "expired") (hbap : b.is_applicable = false) :
    priority_sort_key (setMeets mA b) < priority_sort_key (setMeets mA a) := by
  have hamt : amountPart (setMeets mA a) = amountPart (setMeets mA b) := by
    unfold amountPart setMeets
    simp [hav]
  have hua : urgencyBonus (setMeets mA a) = 0 := by
    unfold urgencyBonus setMeets
    simp only
    rw [hast]
    rw [if_neg (show ¬ (("active" : String) = "today") by decide),
      if_neg (show ¬ (("active" : String) = "urgent") by decide),
      if_neg (show ¬ (("active" : String) = "soon") by decide)]
  have hub : urgencyBonus (setMeets mA b) = 0 := by
    unfold urgencyBonus setMeets
    simp only
    rw [hbst]
    rw [if_neg (show ¬ (("expired" : String) = "today") by decide),
      if_neg (show ¬ (("expired" : String) = "urgent") by decide),
      if_neg (show ¬ (("expired" : String) = "soon") by decide)]
  have hta : 500 ≤ tierBonus (setMeets mA a) := by
    unfold tierBonus setMeets
    simp only
    rw [haap]
    cases hcy : a.is_current_year
    · simp
    · simp
      norm_num
  have htb : tierBonus (setMeets mA b) ≤ 100 := by
    unfold tierBonus setMeets
    simp only
    rw [hbap]
    cases hcy : b.is_current_year
    · simp
      norm_num
    · simp
  unfold priority_sort_key
  rw [hamt, hua, hub]
  linarith

/-- C4 counterexample: two candidates with equal `similarity_score`,
one `active` (amount_value 0) and one `expired` but holding a large
cached amount (10^13): with no amount condition (`min_amount = 0`) the
expired candidate receives 2000 + 500 + 10 = 2510 priority against the
active candidate's 1000, so the reranked output places the expired
candidate strictly first — refuting the claim in its universal form. -/
def c4active : Candidate :=
  { id := "a", title := "", organization := "", score := 1/2,
    amount_value := 0, is_current_year := true, is_applicable := true,
    status := "active", deadline_is_urgent := false,
    meets_amount_condition := false }

def c4expired : Candidate :=
  { id := "b", title := "", organization := "", score := 1/2,
    amount_value := 10000000000000, is_current_year := false,
    is_applicable := false, status := "expired",
    deadline_is_urgent := false, meets_amount_condition := false }

theorem c4_counterexample :
    c4active.score = c4expired.score ∧
    c4active.status = "active" ∧ c4expired.status = "expired" ∧
    search_with_application_priority 0 2 [c4active, c4expired] =
      [setMeets 0 c4expired, setMeets 0 c4active] := by
  have hbonus : amountBonus 10000000000000 = 500 := by
    unfold amountBonus
    rw [show ((10000000000000 : ℤ) : ℝ) / 100000000 = (10 : ℝ) ^ (5 : ℕ) by
        norm_num,
      Real.logb_pow, Real.logb_self_eq_one (by norm_num)]
    norm_num
  have hme : (setMeets 0 c4expired).meets_amount_condition = true := rfl
  have have2 : (setMeets 0 c4expired).amount_value = 10000000000000 := rfl
  have hia : (setMeets 0 c4expired).is_applicable = false := rfl
  have hic : (setMeets 0 c4expired).is_current_year = false := rfl
  have hst : (setMeets 0 c4expired).status = "expired" := rfl
  have hpe : priority_sort_key (setMeets 0 c4expired) = 2510 := by
    unfold priority_sort_key amountPart tierBonus urgencyBonus
    rw [hme, have2, hia, hic, hst]
    simp only [if_true]
    rw [if_pos (by norm_num : (0 : ℤ) < 10000000000000), hbonus]
    norm_num
    rw [if_neg (show ¬ (("expired" : String) = "today") by decide),
      if_neg (show ¬ (("expired" : String) = "urgent") by decide),
      if_neg (show ¬ (("expired" : String) = "soon") by decide)]
  have hma : (setMeets 0 c4active).meets_amount_condition = false := rfl
  have hiaA : (setMeets 0 c4active).is_applicable = true := rfl
  have hicA : (setMeets 0 c4active).is_current_year = true := rfl
  have hstA : (setMeets 0 c4active).status = "active" := rfl
  have hpa : priority_sort_key (setMeets 0 c4active) = 1000 := by
    unfold priority_sort_key amountPart tierBonus urgencyBonus
    rw [hma, hiaA, hicA, hstA]
    norm_num
    rw [if_neg (show ¬ (("active" : String) = "today") by decide),
      if_neg (show ¬ (("active" : String) = "urgent") by decide),
      if_neg (show ¬ (("active" : String) = "soon") by decide)]
  have hns : ¬ rankLE (setMeets 0 c4active) (setMeets 0 c4expired) := by
    unfold rankLE
    rw [hpa, hpe]
    rintro (h | ⟨h, _⟩)
    · norm_num at h
    · norm_num at h
  refine ⟨rfl, rfl, rfl, ?_⟩
  unfold search_with_application_priority
  simp only [List.map_cons, List.map_nil, List.insertionSort,
    List.orderedInsert]
  rw [if_neg hns]
  rfl

/-- C4 amended: the sort key is lexicographic — priority score first,
similarity score only as the tie-break — so the reranked output is
pairwise ordered by `rankLE`; and an active candidate is placed
strictly before an equal-similarity expired candidate provided the two
agree on `amount_value` (hence on the amount part of the score).  The
counterexample shows the proviso cannot be dropped. -/
theorem c4_active_ranks_before_expired (min_amount : ℤ) (top_k : ℕ)
    (l : List Candidate) (a b : Candidate)
    (hscore : a.score = b.score)
    (hav : a.amount_value = b.amount_value)
    (hast : a.status = "active") (haap : a.is_applicable = true)
    (hbst : b.status = "expired") (hbap : b.is_applicable = false) :
    List.Pairwise rankLE (search_with_application_priority min_amount top_k l) ∧
    ∀ (i j : ℕ)
      (hi : i < (search_with_application_priority min_amount top_k l).length)
      (hj : j < (search_with_application_priority min_amount top_k l).length),
      (search_with_application_priority min_amount top_k l).get ⟨i, hi⟩ =
        setMeets min_amount b →
      (search_with_application_priority min_amount top_k l).get ⟨j, hj⟩ =
        setMeets min_amount a →
      j < i := by
  have hsorted : List.Sorted rankLE
      ((l.map (setMeets min_amount)).insertionSort rankLE) :=
    List.sorted_insertionSort rankLE _
  have hpw : List.Pairwise rankLE
      (search_with_application_priority min_amount top_k l) := by
    unfold search_with_application_priority
    exact List.Pairwise.sublist (List.take_sublist _ _) hsorted
  refine ⟨hpw, ?_⟩
  intro i j hi hj hbi haj
  have hkey := priority_active_gt_expired min_amount a b hav hast haap hbst hbap
  rcases Nat.lt_trichotomy j i with h | h | h
  · exact h
  · exfalso
    subst h
    have hsame : (search_with_application_priority min_amount top_k l).get
        ⟨j, hi⟩ = (search_with_application_priority min_amount top_k l).get
        ⟨j, hj⟩ := rfl
    have heq : setMeets min_amount b = setMeets min_amount a := by
      rw [← hbi, hsame, haj]
    have h2 : (setMeets min_amount b).status = (setMeets min_amount a).status :=
      congrArg Candidate.status heq
    have h3 : b.status = a.status := h2
    rw [hast, hbst] at h3
    have h2 := h3
    exact absurd h2 (by decide)
  · exfalso
    have hr := List.pairwise_iff_get.mp hpw ⟨i, hi⟩ ⟨j, hj⟩ h
    rw [hbi, haj] at hr
    rcases hr with hr | ⟨hr, _⟩
    · exact absurd hr (lt_asymm hkey)
    · rw [hr] at hkey
      exact lt_irrefl _ hkey

def c4wa : Candidate :=
  { id := "wa", title := "", organization := "", score := 1/2,
    amount_value := 0, is_current_year := true, is_applicable := true,
    status := "active", deadline_is_urgent := false,
    meets_amount_condition := false }

def c4wb : Candidate :=
  { id := "wb", title := "", organization := "", score := 1/2,
    amount_value := 0, is_current_year := false, is_applicable := false,
    status := "expired", deadline_is_urgent := false,
    meets_amount_condition := false }

/-- C4 witness: the amended statement instantiated at a concrete
two-candidate list. -/
theorem c4_witness :
    (c4wa.score = c4wb.score ∧ c4wa.amount_value = c4wb.amount_value ∧
      c4wa.status = "active" ∧ c4wa.is_applicable = true ∧
      c4wb.status = "expired" ∧ c4wb.is_applicable = false) ∧
    (List.Pairwise rankLE (search_with_application_priority 0 2 [c4wb, c4wa]) ∧
      ∀ (i j : ℕ)
        (hi : i < (search_with_application_priority 0 2 [c4wb, c4wa]).length)
        (hj : j < (search_with_application_priority 0 2 [c4wb, c4wa]).length),
        (search_with_application_priority 0 2 [c4wb, c4wa]).get ⟨i, hi⟩ =
          setMeets 0 c4wb →
        (search_with_application_priority 0 2 [c4wb, c4wa]).get ⟨j, hj⟩ =
          setMeets 0 c4wa →
        j < i) :=
  ⟨⟨rfl, rfl, rfl, rfl, rfl, rfl⟩,
    c4_active_ranks_before_expired 0 2 [c4wb, c4wa] c4wa c4wb
      rfl rfl rfl rfl rfl rfl⟩
